import Mathlib

/-!
# cloudwatch-log-retention

A shallow embedding of the Go program `cloudwatch-log-retention`
(`main.go`, `cloudwatch/logs/logs.go`) together with the behaviour of the
library functions it calls (`os.Getenv`, `strconv.ParseInt`,
`encoding/json.Unmarshal`, the CloudWatch Logs client).

Conventions.

* A Go `string` / `[]byte` is a list of bytes (`GoString`); a byte is a natural
  number below 256.
* A Go `int64` is an `Int` in the range `-2^63 ≤ i < 2^63`; a `uint64` is a
  `Nat` below `2^64`.  Every arithmetic step that can wrap is written with an
  explicit reduction modulo `2^64`.
* `logrus` output has no influence on any returned value or on the calls
  issued, and is left out.
-/

namespace LogRetention

/-! ## Bytes and strings -/

/-- A byte of a Go string. -/
abbrev Byte := Nat

/-- A Go string: an immutable sequence of bytes. -/
abbrev GoString := List Byte

/-- The UTF-8 bytes of a string literal of the source. -/
def bytes (s : String) : GoString :=
  s.data.flatMap fun c => (String.utf8EncodeChar c).map UInt8.toNat

/-! ## Machine integers -/

/-- Smallest `int64`. -/
def minInt64 : Int := -(2 ^ 63)

/-- Largest `int64`. -/
def maxInt64 : Int := 2 ^ 63 - 1

/-- Largest `uint64`. -/
def maxUint64 : Nat := 2 ^ 64 - 1

/-- Membership in the range of `int64`. -/
def isInt64 (i : Int) : Prop := minInt64 ≤ i ∧ i ≤ maxInt64

instance (i : Int) : Decidable (isInt64 i) := by
  unfold isInt64; exact inferInstance

/-- Two's-complement reduction of an integer to `int64` (the conversion
`int64(u)` and the result of wrapping `int64` arithmetic). -/
def wrapInt64 (z : Int) : Int := (z + 2 ^ 63) % 2 ^ 64 - 2 ^ 63

/-! ## `strconv` -/

/-- The two sentinel errors carried by `*strconv.NumError`. -/
inductive NumError where
  | ErrSyntax
  | ErrRange
  deriving DecidableEq, Repr

/-- Go: `lower(c)`, that is `c | ('x' - 'X')`. -/
def lower (c : Byte) : Byte := c ||| 32

/-- Digit value of a byte in `strconv.ParseUint`: decimal digits, then letters
as digits ten and up; `none` is the `default` arm of the switch. -/
def digitValue (c : Byte) : Option Nat :=
  if 48 ≤ c ∧ c ≤ 57 then some (c - 48)
  else if 97 ≤ lower c ∧ lower c ≤ 122 then some (lower c - 97 + 10)
  else none

/-- Go: `cutoff` of `ParseUint` for base 10, `maxUint64/10 + 1`. -/
def cutoffUint : Nat := maxUint64 / 10 + 1

/-- Loop of `strconv.ParseUint(s, 10, 64)` over the bytes of `s`, with `n` the
value accumulated so far. -/
def parseUintLoop (n : Nat) : GoString → Nat × Option NumError
  | [] => (n, none)
  | c :: cs =>
    match digitValue c with
    | none => (0, some NumError.ErrSyntax)
    | some d =>
      if d ≥ 10 then (0, some NumError.ErrSyntax)
      else if n ≥ cutoffUint then (maxUint64, some NumError.ErrRange)
      else
        let n10 := (n * 10) % 2 ^ 64
        let n1 := (n10 + d) % 2 ^ 64
        if n1 < n10 ∨ n1 > maxUint64 then (maxUint64, some NumError.ErrRange)
        else parseUintLoop n1 cs

/-- Go: `strconv.ParseUint(s, 10, 64)`. -/
def ParseUint (s : GoString) : Nat × Option NumError :=
  if s = [] then (0, some NumError.ErrSyntax) else parseUintLoop 0 s

/-- Go: `strconv.ParseInt(s, 10, 64)`: the value and the error, both of which
Go returns (the value is `0` on a syntax error and the nearest `int64` on a
range error). -/
def ParseInt (s : GoString) : Int × Option NumError :=
  match s with
  | [] => (0, some NumError.ErrSyntax)
  | c :: cs =>
    let neg : Bool := c = 45
    let s1 : GoString := if c = 43 then cs else if c = 45 then cs else c :: cs
    let r := ParseUint s1
    if r.2 = some NumError.ErrSyntax then (0, some NumError.ErrSyntax)
    else
      let un := r.1
      let cutoff : Nat := 2 ^ 63
      if neg = false ∧ un ≥ cutoff then ((cutoff : Int) - 1, some NumError.ErrRange)
      else if neg = true ∧ un > cutoff then (-(cutoff : Int), some NumError.ErrRange)
      else
        let n := wrapInt64 (un : Int)
        (if neg then wrapInt64 (-n) else n, none)

/-- Digits of `strconv.FormatUint(n, 10)`, least significant first, pushed in
front of `acc`; `fuel` bounds the number of digits. -/
def formatDigits : Nat → Nat → GoString → GoString
  | 0, _, acc => acc
  | fuel + 1, n, acc =>
    if n / 10 = 0 then (48 + n % 10) :: acc
    else formatDigits fuel (n / 10) ((48 + n % 10) :: acc)

/-- Go: `strconv.FormatUint(n, 10)`. -/
def FormatUint (n : Nat) : GoString := formatDigits (n + 1) n []

/-- Go: `strconv.FormatInt(i, 10)`. -/
def FormatInt (i : Int) : GoString :=
  if i < 0 then 45 :: FormatUint (-i).toNat else FormatUint i.toNat

/-! ## The process environment -/

/-- The environment of the process: `os.LookupEnv`. -/
abbrev Environ := GoString → Option GoString

/-- Go: `os.Getenv(key)`, the empty string when the variable is not set. -/
def Getenv (env : Environ) (key : GoString) : GoString := (env key).getD []

/-! ## `logs.RetentionPeriod` -/

/-- Go: `const defaultRetentionPeriod = 14`. -/
def defaultRetentionPeriod : Int := 14

/-- Go: the slice `validPeriods` of `RetentionPeriod`. -/
def validPeriods : List Int :=
  [1, 3, 5, 7, 14, 30, 60, 90, 120, 150, 180, 365, 400, 545, 731, 1827, 3653]

/-- Go: `map[int64]bool`. -/
abbrev PeriodMap := Int → Option Bool

/-- Go: `make(map[int64]bool)`. -/
def PeriodMap.empty : PeriodMap := fun _ => none

/-- Go: `m[k] = v`. -/
def PeriodMap.set (m : PeriodMap) (k : Int) (v : Bool) : PeriodMap :=
  fun x => if x = k then some v else m x

/-- Go: `logs.RetentionPeriod()`, reading `RETENTION_PERIOD` from `env`. -/
def RetentionPeriod (env : Environ) : Int :=
  let period := (ParseInt (Getenv env (bytes "RETENTION_PERIOD"))).1
  let m := validPeriods.foldl (fun m p => PeriodMap.set m p true) PeriodMap.empty
  match m period with
  | some _ => period
  | none => defaultRetentionPeriod

/-! ## `encoding/json`: the scanner -/

/-- The lexical items of a JSON text. A string carries the raw bytes between
its quotes, a number its literal. -/
inductive Token where
  | beginObject
  | endObject
  | beginArray
  | endArray
  | colon
  | comma
  | string (raw : GoString)
  | number (lit : GoString)
  | litTrue
  | litFalse
  | litNull
  deriving DecidableEq, Repr

/-- Scanner states inside a number (Go: `stateNeg`, `state0`, `state1`,
`stateDot`, `stateDot0`, `stateE`, `stateESign`, `stateE0`). -/
inductive NumState where
  | neg
  | zero
  | int
  | dot
  | dot0
  | e
  | eSign
  | e0
  deriving DecidableEq, Repr

/-- Scanner states. Accumulated bytes are kept most recent first. -/
inductive LexState where
  | start
  | inString (raw : GoString)
  | inStringEsc (raw : GoString)
  | inStringEscU (raw : GoString) (pending : Nat)
  | inNumber (st : NumState) (lit : GoString)
  | inLiteral (rest : GoString) (tok : Token)
  deriving DecidableEq, Repr

/-- Go: `isSpace`. -/
def isSpace (c : Byte) : Bool := c = 32 ∨ c = 9 ∨ c = 13 ∨ c = 10

/-- A decimal digit byte. -/
def isDigit (c : Byte) : Bool := 48 ≤ c ∧ c ≤ 57

/-- A hexadecimal digit byte (Go: the test of `stateInStringEscU`). -/
def isHex (c : Byte) : Bool :=
  (48 ≤ c ∧ c ≤ 57) ∨ (97 ≤ c ∧ c ≤ 102) ∨ (65 ≤ c ∧ c ≤ 70)

/-- One byte read where a token may begin. -/
def lexStart (c : Byte) : Option (LexState × List Token) :=
  if isSpace c then some (LexState.start, [])
  else if c = 123 then some (LexState.start, [Token.beginObject])
  else if c = 125 then some (LexState.start, [Token.endObject])
  else if c = 91 then some (LexState.start, [Token.beginArray])
  else if c = 93 then some (LexState.start, [Token.endArray])
  else if c = 58 then some (LexState.start, [Token.colon])
  else if c = 44 then some (LexState.start, [Token.comma])
  else if c = 34 then some (LexState.inString [], [])
  else if c = 45 then some (LexState.inNumber NumState.neg [c], [])
  else if c = 48 then some (LexState.inNumber NumState.zero [c], [])
  else if isDigit c then some (LexState.inNumber NumState.int [c], [])
  else if c = 116 then some (LexState.inLiteral [114, 117, 101] Token.litTrue, [])
  else if c = 102 then some (LexState.inLiteral [97, 108, 115, 101] Token.litFalse, [])
  else if c = 110 then some (LexState.inLiteral [117, 108, 108] Token.litNull, [])
  else none

/-- A number may end in this state. -/
def NumState.accepting : NumState → Bool
  | NumState.zero => true
  | NumState.int => true
  | NumState.dot0 => true
  | NumState.e0 => true
  | _ => false

/-- Next state of the number scanner on `c`; `none` when `c` does not continue
the number. -/
def NumState.next (st : NumState) (c : Byte) : Option NumState :=
  match st with
  | NumState.neg => if c = 48 then some NumState.zero else if isDigit c then some NumState.int else none
  | NumState.zero =>
    if c = 46 then some NumState.dot else if c = 101 ∨ c = 69 then some NumState.e else none
  | NumState.int =>
    if isDigit c then some NumState.int
    else if c = 46 then some NumState.dot else if c = 101 ∨ c = 69 then some NumState.e else none
  | NumState.dot => if isDigit c then some NumState.dot0 else none
  | NumState.dot0 =>
    if isDigit c then some NumState.dot0 else if c = 101 ∨ c = 69 then some NumState.e else none
  | NumState.e =>
    if c = 43 ∨ c = 45 then some NumState.eSign else if isDigit c then some NumState.e0 else none
  | NumState.eSign => if isDigit c then some NumState.e0 else none
  | NumState.e0 => if isDigit c then some NumState.e0 else none

/-- One step of the scanner: the next state and the tokens completed by `c`. -/
def lexStep (st : LexState) (c : Byte) : Option (LexState × List Token) :=
  match st with
  | LexState.start => lexStart c
  | LexState.inString raw =>
    if c = 34 then some (LexState.start, [Token.string raw.reverse])
    else if c = 92 then some (LexState.inStringEsc (c :: raw), [])
    else if c < 32 then none
    else some (LexState.inString (c :: raw), [])
  | LexState.inStringEsc raw =>
    if c = 98 ∨ c = 102 ∨ c = 110 ∨ c = 114 ∨ c = 116 ∨ c = 92 ∨ c = 47 ∨ c = 34 then
      some (LexState.inString (c :: raw), [])
    else if c = 117 then some (LexState.inStringEscU (c :: raw) 4, [])
    else none
  | LexState.inStringEscU raw pending =>
    if isHex c then
      if pending ≤ 1 then some (LexState.inString (c :: raw), [])
      else some (LexState.inStringEscU (c :: raw) (pending - 1), [])
    else none
  | LexState.inNumber ns lit =>
    match ns.next c with
    | some ns1 => some (LexState.inNumber ns1 (c :: lit), [])
    | none =>
      if ns.accepting then
        match lexStart c with
        | some (st1, toks) => some (st1, Token.number lit.reverse :: toks)
        | none => none
      else none
  | LexState.inLiteral rest tok =>
    match rest with
    | [] => none
    | x :: xs =>
      if c = x then
        if xs = [] then some (LexState.start, [tok]) else some (LexState.inLiteral xs tok, [])
      else none

/-- The scanner run over a text; `out` holds the tokens found so far, most
recent first. `none` is a syntax error. -/
def lex (st : LexState) (out : List Token) : GoString → Option (List Token)
  | [] =>
    match st with
    | LexState.start => some out.reverse
    | LexState.inNumber ns lit =>
      if ns.accepting then some (Token.number lit.reverse :: out).reverse else none
    | _ => none
  | c :: cs =>
    match lexStep st c with
    | none => none
    | some (st1, toks) => lex st1 (toks.reverse ++ out) cs

/-! ## `encoding/json`: string literals -/

/-- Value of a hexadecimal digit byte. -/
def hexValue (c : Byte) : Option Nat :=
  if 48 ≤ c ∧ c ≤ 57 then some (c - 48)
  else if 97 ≤ c ∧ c ≤ 102 then some (c - 97 + 10)
  else if 65 ≤ c ∧ c ≤ 70 then some (c - 65 + 10)
  else none

/-- Go: `getu4` on the four bytes after `\u`. -/
def getu4 (a b c d : Byte) : Option Nat :=
  match hexValue a, hexValue b, hexValue c, hexValue d with
  | some x, some y, some z, some w => some (((x * 16 + y) * 16 + z) * 16 + w)
  | _, _, _, _ => none

/-- The rune `unicode.ReplacementChar` (also `utf8.RuneError`). -/
def replacementChar : Nat := 65533

/-- Go: `utf8.EncodeRune`. -/
def encodeRune (r : Nat) : GoString :=
  if r < 128 then [r]
  else if r < 2048 then [192 ||| (r >>> 6), 128 ||| (r &&& 63)]
  else if (55296 ≤ r ∧ r ≤ 57343) ∨ r > 1114111 then [239, 191, 189]
  else if r < 65536 then [224 ||| (r >>> 12), 128 ||| ((r >>> 6) &&& 63), 128 ||| (r &&& 63)]
  else
    [240 ||| (r >>> 18), 128 ||| ((r >>> 12) &&& 63), 128 ||| ((r >>> 6) &&& 63),
      128 ||| (r &&& 63)]

/-- Go: `utf16.IsSurrogate`. -/
def isSurrogate (r : Nat) : Bool := 55296 ≤ r ∧ r < 57344

/-- Go: `utf16.DecodeRune`. -/
def decodeSurrogates (r1 r2 : Nat) : Nat :=
  if 55296 ≤ r1 ∧ r1 < 56320 ∧ 56320 ≤ r2 ∧ r2 < 57344 then
    (((r1 - 55296) <<< 10) ||| (r2 - 56320)) + 65536
  else replacementChar

/-- A continuation byte of UTF-8. -/
def isCont (b : Byte) : Bool := 128 ≤ b ∧ b ≤ 191

/-- Go: the table `first` with `acceptRanges` of `unicode/utf8`: for a leading
byte, the length of the sequence and the range allowed for the second byte;
`none` for a byte that cannot lead a multi-byte sequence. -/
def utf8Lead (b : Byte) : Option (Nat × Nat × Nat) :=
  if 194 ≤ b ∧ b ≤ 223 then some (2, 128, 191)
  else if b = 224 then some (3, 160, 191)
  else if (225 ≤ b ∧ b ≤ 236) ∨ b = 238 ∨ b = 239 then some (3, 128, 191)
  else if b = 237 then some (3, 128, 159)
  else if b = 240 then some (4, 144, 191)
  else if 241 ≤ b ∧ b ≤ 243 then some (4, 128, 191)
  else if b = 244 then some (4, 128, 143)
  else none

/-- Go: `utf8.DecodeRune` on a text that starts with a byte `b0 ≥ 0x80`: the
rune and the number of bytes it takes; an invalid sequence is
`(utf8.RuneError, 1)`. -/
def decodeRune (b0 : Byte) (rest : GoString) : Nat × Nat :=
  match utf8Lead b0 with
  | none => (replacementChar, 1)
  | some (sz, lo, hi) =>
    if rest.length + 1 < sz then (replacementChar, 1)
    else
      match rest with
      | b1 :: rest1 =>
        if b1 < lo ∨ hi < b1 then (replacementChar, 1)
        else if sz ≤ 2 then (((b0 &&& 31) <<< 6) ||| (b1 &&& 63), 2)
        else
          match rest1 with
          | b2 :: rest2 =>
            if ¬ isCont b2 then (replacementChar, 1)
            else if sz ≤ 3 then
              (((b0 &&& 15) <<< 12) ||| ((b1 &&& 63) <<< 6) ||| (b2 &&& 63), 3)
            else
              match rest2 with
              | b3 :: _ =>
                if ¬ isCont b3 then (replacementChar, 1)
                else
                  (((b0 &&& 7) <<< 18) ||| ((b1 &&& 63) <<< 12) ||| ((b2 &&& 63) <<< 6)
                    ||| (b3 &&& 63), 4)
              | [] => (replacementChar, 1)
          | [] => (replacementChar, 1)
      | [] => (replacementChar, 1)

/-- Go: the simple escapes of `unquoteBytes`. -/
def unescape (c : Byte) : Option Byte :=
  if c = 34 ∨ c = 92 ∨ c = 47 ∨ c = 39 then some c
  else if c = 98 then some 8
  else if c = 102 then some 12
  else if c = 110 then some 10
  else if c = 114 then some 13
  else if c = 116 then some 9
  else none

/-- Go: `unquoteBytes`, on the raw bytes between the quotes of a string literal,
with `skip` bytes of the text already consumed by the rune or escape in
progress. `none` is Go's `ok = false`. -/
def unquoteFrom : Nat → GoString → Option GoString
  | _, [] => some []
  | skip + 1, _ :: rest => unquoteFrom skip rest
  | 0, c :: rest =>
    if c = 92 then
      match rest with
      | [] => none
      | 117 :: a :: b :: x :: y :: rest1 =>
        match getu4 a b x y with
        | none => none
        | some rr =>
          if isSurrogate rr then
            let rr1 : Option Nat :=
              match rest1 with
              | 92 :: 117 :: a1 :: b1 :: x1 :: y1 :: _ => getu4 a1 b1 x1 y1
              | _ => none
            let dec := match rr1 with
              | some r1 => decodeSurrogates rr r1
              | none => replacementChar
            if dec ≠ replacementChar then
              (unquoteFrom 11 rest).map fun t => encodeRune dec ++ t
            else (unquoteFrom 5 rest).map fun t => encodeRune replacementChar ++ t
          else (unquoteFrom 5 rest).map fun t => encodeRune rr ++ t
      | e :: _ =>
        match unescape e with
        | none => none
        | some u => (unquoteFrom 1 rest).map fun t => u :: t
    else if c = 34 ∨ c < 32 then none
    else if c < 128 then (unquoteFrom 0 rest).map fun t => c :: t
    else
      let d := decodeRune c rest
      (unquoteFrom (d.2 - 1) rest).map fun t => encodeRune d.1 ++ t

/-- Go: `unquoteBytes` (on the contents of the literal). -/
def unquote (raw : GoString) : Option GoString := unquoteFrom 0 raw

/-! ## `encoding/json`: values -/

/-- A JSON value. A number keeps its literal, as Go's decoder does until it
knows the type it decodes into; a string is already unquoted; an object keeps
its members in the order of the text, duplicates included. -/
inductive Json where
  | null
  | bool (b : Bool)
  | num (lit : GoString)
  | str (s : GoString)
  | arr (elems : List Json)
  | obj (members : List (GoString × Json))

/-- An array or object still open while its text is read; elements and members
are kept most recent first. -/
inductive Frame where
  | arr (elems : List Json)
  | obj (members : List (GoString × Json))
  | objKey (members : List (GoString × Json)) (key : GoString)

/-- What the grammar allows next. -/
inductive Expect where
  | value
  | valueOrEndArray
  | keyOrEndObject
  | key
  | colon
  | commaOrEnd
  | done
  deriving DecidableEq, Repr

/-- State of the parser: the open arrays and objects, innermost first, what may
come next, and the finished top-level value. -/
structure ParseState where
  stack : List Frame
  expect : Expect
  result : Option Json

/-- The value of a token that is a value by itself. -/
def scalar : Token → Option Json
  | Token.string raw => (unquote raw).map Json.str
  | Token.number lit => some (Json.num lit)
  | Token.litTrue => some (Json.bool true)
  | Token.litFalse => some (Json.bool false)
  | Token.litNull => some Json.null
  | _ => none

/-- A finished value goes to the innermost open array or object, or is the
result. -/
def pushValue (v : Json) : List Frame → Option ParseState
  | [] => some ⟨[], Expect.done, some v⟩
  | Frame.arr elems :: rest => some ⟨Frame.arr (v :: elems) :: rest, Expect.commaOrEnd, none⟩
  | Frame.objKey members k :: rest =>
    some ⟨Frame.obj ((k, v) :: members) :: rest, Expect.commaOrEnd, none⟩
  | Frame.obj _ :: _ => none

/-- A token where a value must begin. -/
def parseValueStart (stack : List Frame) (tok : Token) : Option ParseState :=
  match tok with
  | Token.beginObject => some ⟨Frame.obj [] :: stack, Expect.keyOrEndObject, none⟩
  | Token.beginArray => some ⟨Frame.arr [] :: stack, Expect.valueOrEndArray, none⟩
  | t =>
    match scalar t with
    | some v => pushValue v stack
    | none => none

/-- A token where an object key must begin. -/
def parseKey (stack : List Frame) (tok : Token) : Option ParseState :=
  match tok, stack with
  | Token.string raw, Frame.obj members :: rest =>
    match unquote raw with
    | some k => some ⟨Frame.objKey members k :: rest, Expect.colon, none⟩
    | none => none
  | _, _ => none

/-- One step of the parser. `none` is a syntax error. -/
def parseStep (st : ParseState) (tok : Token) : Option ParseState :=
  match st.expect with
  | Expect.value => parseValueStart st.stack tok
  | Expect.valueOrEndArray =>
    match tok, st.stack with
    | Token.endArray, Frame.arr elems :: rest => pushValue (Json.arr elems.reverse) rest
    | t, stack => parseValueStart stack t
  | Expect.keyOrEndObject =>
    match tok, st.stack with
    | Token.endObject, Frame.obj members :: rest => pushValue (Json.obj members.reverse) rest
    | t, stack => parseKey stack t
  | Expect.key => parseKey st.stack tok
  | Expect.colon =>
    match tok with
    | Token.colon => some ⟨st.stack, Expect.value, none⟩
    | _ => none
  | Expect.commaOrEnd =>
    match tok, st.stack with
    | Token.comma, Frame.arr elems :: rest => some ⟨Frame.arr elems :: rest, Expect.value, none⟩
    | Token.endArray, Frame.arr elems :: rest => pushValue (Json.arr elems.reverse) rest
    | Token.comma, Frame.obj members :: rest =>
      some ⟨Frame.obj members :: rest, Expect.key, none⟩
    | Token.endObject, Frame.obj members :: rest => pushValue (Json.obj members.reverse) rest
    | _, _ => none
  | Expect.done => none

/-- The parser run over the tokens of a text. -/
def parseTokens (st : ParseState) : List Token → Option Json
  | [] =>
    match st.expect with
    | Expect.done => st.result
    | _ => none
  | tok :: toks =>
    match parseStep st tok with
    | none => none
    | some st1 => parseTokens st1 toks

/-- The value a JSON text denotes; `none` when the text is not valid JSON (Go:
`checkValid` fails with a `*json.SyntaxError`). The grammar is that of RFC 8259;
the bound that later versions of Go put on the depth of nesting (10000) is
left out. -/
def parseJSON (data : GoString) : Option Json :=
  match lex LexState.start [] data with
  | none => none
  | some toks => parseTokens ⟨[], Expect.value, none⟩ toks

/-! ## `encoding/json`: decoding into the structs of `logs.go` -/

/-- Folding of a name to lower case as far as it matters for names of ASCII
letters: ASCII upper case goes to lower case, and so do the two other
characters in the case orbits of ASCII letters, the Kelvin sign (U+212A,
bytes `E2 84 AA`) and the long s (U+017F, bytes `C5 BF`). -/
def foldName : GoString → GoString
  | 226 :: 132 :: 170 :: rest => 107 :: foldName rest
  | 197 :: 191 :: rest => 115 :: foldName rest
  | c :: rest => (if 65 ≤ c ∧ c ≤ 90 then c + 32 else c) :: foldName rest
  | [] => []

/-- Go: the case-insensitive comparison of a field name with an object key. -/
def equalFold (name key : GoString) : Bool := foldName name = foldName key

/-- Go: the lookup of the field for an object key, "preferring an exact match
but also accepting a case-insensitive match". -/
def findField {α : Type} (fields : List (GoString × α)) (key : GoString) : Option α :=
  match fields.find? fun f => f.1 = key with
  | some f => some f.2
  | none => (fields.find? fun f => equalFold f.1 key).map fun f => f.2

/-- The errors of `json.Unmarshal`: `*json.SyntaxError`, and
`*json.UnmarshalTypeError` with the description of the JSON value and the name
of the Go type it could not be stored in. -/
inductive UnmarshalError where
  | SyntaxError
  | UnmarshalTypeError (Value : GoString) (GoType : GoString)
  deriving DecidableEq, Repr

/-- Go: `d.saveError`, which keeps the first error. -/
def saveError (saved : Option UnmarshalError) (err : UnmarshalError) : Option UnmarshalError :=
  match saved with
  | none => some err
  | some e => some e

/-- Go: the description of a JSON value in an `UnmarshalTypeError`. -/
def Json.describe : Json → GoString
  | Json.null => bytes "null"
  | Json.bool _ => bytes "bool"
  | Json.num _ => bytes "number"
  | Json.str _ => bytes "string"
  | Json.arr _ => bytes "array"
  | Json.obj _ => bytes "object"

/-- Go: `type CloudWatchLog struct`. -/
structure CloudWatchLog where
  LogGroupName : GoString
  RetentionPeriod : Int
  deriving DecidableEq, Repr

/-- Go: `type requestParameters struct`. -/
structure requestParameters where
  CloudWatchLog : CloudWatchLog
  deriving DecidableEq, Repr

/-- The zero value of `CloudWatchLog`. -/
def CloudWatchLog.zero : CloudWatchLog := ⟨[], 0⟩

/-- The zero value of `requestParameters`. -/
def requestParameters.zero : requestParameters := ⟨CloudWatchLog.zero⟩

/-- Decoding of a JSON value into a Go `string`: `null` leaves it as it is, a
string sets it, anything else is a type error and leaves it as it is. -/
def decodeString (v : Json) (dst : GoString) (saved : Option UnmarshalError) :
    GoString × Option UnmarshalError :=
  match v with
  | Json.null => (dst, saved)
  | Json.str s => (s, saved)
  | w => (dst, saveError saved (UnmarshalError.UnmarshalTypeError w.describe (bytes "string")))

/-- Decoding of a JSON value into a Go `int64`: `null` leaves it as it is, a
number literal that `strconv.ParseInt` accepts sets it, anything else is a type
error and leaves it as it is. -/
def decodeInt64 (v : Json) (dst : Int) (saved : Option UnmarshalError) :
    Int × Option UnmarshalError :=
  match v with
  | Json.null => (dst, saved)
  | Json.num lit =>
    match (ParseInt lit).2 with
    | none => ((ParseInt lit).1, saved)
    | some _ =>
      (dst, saveError saved
        (UnmarshalError.UnmarshalTypeError (bytes "number " ++ lit) (bytes "int64")))
  | w => (dst, saveError saved (UnmarshalError.UnmarshalTypeError w.describe (bytes "int64")))

/-- The fields of `CloudWatchLog`. -/
inductive CloudWatchLogField where
  | LogGroupName
  | RetentionPeriod
  deriving DecidableEq, Repr

/-- The JSON names of the fields of `CloudWatchLog`, from their tags. -/
def CloudWatchLog.fields : List (GoString × CloudWatchLogField) :=
  [(bytes "logGroupName", CloudWatchLogField.LogGroupName),
   (bytes "retentionInDays", CloudWatchLogField.RetentionPeriod)]

/-- Decoding of one member of an object into `CloudWatchLog`; a key that names
no field is skipped. -/
def decodeCloudWatchLogMember (acc : CloudWatchLog × Option UnmarshalError)
    (kv : GoString × Json) : CloudWatchLog × Option UnmarshalError :=
  match findField CloudWatchLog.fields kv.1 with
  | some CloudWatchLogField.LogGroupName =>
    let r := decodeString kv.2 acc.1.LogGroupName acc.2
    (⟨r.1, acc.1.RetentionPeriod⟩, r.2)
  | some CloudWatchLogField.RetentionPeriod =>
    let r := decodeInt64 kv.2 acc.1.RetentionPeriod acc.2
    (⟨acc.1.LogGroupName, r.1⟩, r.2)
  | none => acc

/-- Decoding of a JSON value into a `CloudWatchLog`: `null` leaves it as it is,
an object is decoded member by member in the order of the text, anything else
is a type error. -/
def decodeCloudWatchLog (v : Json) (dst : CloudWatchLog) (saved : Option UnmarshalError) :
    CloudWatchLog × Option UnmarshalError :=
  match v with
  | Json.null => (dst, saved)
  | Json.obj members => members.foldl decodeCloudWatchLogMember (dst, saved)
  | w =>
    (dst, saveError saved
      (UnmarshalError.UnmarshalTypeError w.describe (bytes "logs.CloudWatchLog")))

/-- The JSON names of the fields of `requestParameters`. -/
def requestParameters.fields : List (GoString × Unit) := [(bytes "requestParameters", ())]

/-- Decoding of one member of an object into `requestParameters`. -/
def decodeRequestParametersMember (acc : requestParameters × Option UnmarshalError)
    (kv : GoString × Json) : requestParameters × Option UnmarshalError :=
  match findField requestParameters.fields kv.1 with
  | some () =>
    let r := decodeCloudWatchLog kv.2 acc.1.CloudWatchLog acc.2
    (⟨r.1⟩, r.2)
  | none => acc

/-- Decoding of a JSON value into a `requestParameters`. -/
def decodeRequestParameters (v : Json) (dst : requestParameters)
    (saved : Option UnmarshalError) : requestParameters × Option UnmarshalError :=
  match v with
  | Json.null => (dst, saved)
  | Json.obj members => members.foldl decodeRequestParametersMember (dst, saved)
  | w =>
    (dst, saveError saved
      (UnmarshalError.UnmarshalTypeError w.describe (bytes "logs.requestParameters")))

/-- Go: `json.Unmarshal(data, &v)` for `v` of type `requestParameters`: the
value of `v` afterwards and the error. A text that is not valid JSON leaves `v`
untouched; a type error does not stop the decoding of the rest of the text, and
the first one is returned at the end. -/
def Unmarshal (data : GoString) (v : requestParameters) :
    requestParameters × Option UnmarshalError :=
  match parseJSON data with
  | none => (v, some UnmarshalError.SyntaxError)
  | some j => decodeRequestParameters j v none

/-! ## `logs.go` -/

/-- Go: `events.CloudWatchEvent` of `aws-lambda-go`. `Time` is the instant of
the event in nanoseconds; `Detail` is the `json.RawMessage`. -/
structure CloudWatchEvent where
  Version : GoString
  ID : GoString
  DetailType : GoString
  Source : GoString
  AccountID : GoString
  Time : Int
  Region : GoString
  Resources : List GoString
  Detail : GoString

/-- Go: `(cwLog *CloudWatchLog) parseCloudWatchEvent(event)`; the result is the
value of `*cwLog` afterwards. -/
def CloudWatchLog.parseCloudWatchEvent (cwLog : CloudWatchLog) (event : CloudWatchEvent) :
    CloudWatchLog :=
  if event.Detail.length ≤ 0 then cwLog
  else
    let r := Unmarshal event.Detail requestParameters.zero
    match r.2 with
    | some _ => cwLog
    | none =>
      let cwLog1 : CloudWatchLog := ⟨r.1.CloudWatchLog.LogGroupName, cwLog.RetentionPeriod⟩
      ⟨cwLog1.LogGroupName, r.1.CloudWatchLog.RetentionPeriod⟩

/-- Go: `logs.NewFromEvent(event)`. -/
def NewFromEvent (event : CloudWatchEvent) : CloudWatchLog :=
  CloudWatchLog.parseCloudWatchEvent CloudWatchLog.zero event

/-- Go: `cloudwatchlogs.PutRetentionPolicyInput`. -/
structure PutRetentionPolicyInput where
  LogGroupName : GoString
  RetentionInDays : Int
  deriving DecidableEq, Repr

/-- Go: the one method of `cloudwatchlogsiface.CloudWatchLogsAPI` the program
uses, `PutRetentionPolicy`: for a request, the error of the call (`none` is
`nil`); `ε` is the type of its errors. -/
structure CloudWatchLogsAPI (ε : Type) where
  PutRetentionPolicy : PutRetentionPolicyInput → Option ε

/-- What an invocation did: the requests sent to the service, in order, and the
error returned. -/
structure Outcome (ε : Type) where
  calls : List PutRetentionPolicyInput
  err : Option ε

/-- Go: `(cwLog *CloudWatchLog) UpdateRetentionPolicy(client, retentionPeriod)`:
the request it sends with `client.PutRetentionPolicy`, and the error it
returns. -/
def CloudWatchLog.UpdateRetentionPolicy {ε : Type} (cwLog : CloudWatchLog)
    (client : CloudWatchLogsAPI ε) (retentionPeriod : Int) : Outcome ε :=
  let input : PutRetentionPolicyInput := ⟨cwLog.LogGroupName, retentionPeriod⟩
  ⟨[input], client.PutRetentionPolicy input⟩

/-! ## `main.go` -/

/-- Go: `HandleRequest(event)`. `env` is the environment of the process and
`client` the client that `cloudwatchlogs.New(session.Must(session.NewSession()))`
gives; the construction of the session is taken to succeed (`session.Must`
panics when it does not). -/
def HandleRequest {ε : Type} (env : Environ) (client : CloudWatchLogsAPI ε)
    (event : CloudWatchEvent) : Outcome ε :=
  let cwLog := NewFromEvent event
  let defaultRetentionPeriod := RetentionPeriod env
  if cwLog.RetentionPeriod ≠ defaultRetentionPeriod then
    cwLog.UpdateRetentionPolicy client defaultRetentionPeriod
  else ⟨[], none⟩

/-! ## Values the decoder rejects -/

/-- A JSON value of the wrong type for a Go `string`: anything but a string or
`null`. -/
def wrongForString : Json → Bool
  | Json.null => false
  | Json.str _ => false
  | _ => true

/-- A JSON value of the wrong type for a Go `int64`: anything but `null` or a
number literal that `strconv.ParseInt` accepts. -/
def wrongForInt64 : Json → Bool
  | Json.null => false
  | Json.num lit => (ParseInt lit).2.isSome
  | _ => true

/-- A member of the `requestParameters` object whose key names a field of
`CloudWatchLog` and whose value has the wrong type for that field. -/
def mistyped (kv : GoString × Json) : Bool :=
  match findField CloudWatchLog.fields kv.1 with
  | some CloudWatchLogField.LogGroupName => wrongForString kv.2
  | some CloudWatchLogField.RetentionPeriod => wrongForInt64 kv.2
  | none => false

/-! ## Inputs of the tests and of the examples -/

/-- An event of the tests, with the given detail. -/
def testEvent (detail : GoString) : CloudWatchEvent :=
  { Version := bytes "0", ID := bytes "560646ad-c1f3-a8fb-ea6d-730c1b2bfd63",
    DetailType := bytes "AWS API Call via CloudTrail", Source := bytes "aws.logs",
    AccountID := bytes "336840772780", Time := 1554923927000000000,
    Region := bytes "us-east-1", Resources := [], Detail := detail }

/-- An environment in which `RETENTION_PERIOD` is the only variable that may be
set. -/
def envOf (value : Option GoString) : Environ :=
  fun key => if key = bytes "RETENTION_PERIOD" then value else none

/-- A client whose call always succeeds (Go: `mockedPutRetentionPolicy` of the
tests). -/
def mockedPutRetentionPolicy : CloudWatchLogsAPI GoString := ⟨fun _ => none⟩

/-- A client whose call always fails, with the given error. -/
def failingClient (err : GoString) : CloudWatchLogsAPI GoString := ⟨fun _ => some err⟩

/-- Detail of the event of `TestNewCloudWatchLogFromEvent`, with the retention
given. -/
def detailTest (days : String) : GoString :=
  bytes "\x7b \"requestParameters\": \x7b \"logGroupName\": \"test\", \"retentionInDays\": " ++
    bytes days ++ bytes "\x7d\x7d"

/-- Detail of the event of `TestNewCloudWatchLogFromEventNoRequestParameters`. -/
def detailNoRequestParameters : GoString := bytes "\x7b \"requestParameters\":\x7b\x7d\x7d"

/-- Detail of the event of `TestNewCloudWatchLogFromMalformedEvent`. -/
def detailMalformed : GoString :=
  bytes "\x7b \"requestParameters\": \x7b \"logGroupName\": 1\x7d\x7d"

/-- A detail with a well-typed `retentionInDays` before a `logGroupName` of the
wrong type. -/
def detailMalformedLate : GoString :=
  bytes "\x7b\"requestParameters\": \x7b\"retentionInDays\": 7, \"logGroupName\": 1\x7d\x7d"

/-- A detail with a `logGroupName` and no `retentionInDays`. -/
def detailNameOnly : GoString :=
  bytes "\x7b\"requestParameters\": \x7b\"logGroupName\": \"test\"\x7d\x7d"

/-- A detail with a `retentionInDays` and no `logGroupName`. -/
def detailDaysOnly : GoString :=
  bytes "\x7b\"requestParameters\": \x7b\"retentionInDays\": 30\x7d\x7d"

/-- A detail that is not JSON: the text stops inside the object. -/
def detailTruncated : GoString := bytes "\x7b\"requestParameters\": \x7b\"logGroupName\": \"te"

/-! ## Lemmas: `strconv` -/

theorem digitValue_digit (d : Nat) (hd : d < 10) : digitValue (48 + d) = some d := by
  unfold digitValue
  have h : 48 ≤ 48 + d ∧ 48 + d ≤ 57 := by omega
  rw [if_pos h]
  simp

/-- One step of the loop of `ParseUint` on a digit that does not overflow. -/
theorem parseUintLoop_digit (n d : Nat) (cs : GoString) (hd : d < 10)
    (hn : n * 10 + d < 2 ^ 64) :
    parseUintLoop n ((48 + d) :: cs) = parseUintLoop (n * 10 + d) cs := by
  have hcut : ¬ n ≥ cutoffUint := by
    simp only [cutoffUint, maxUint64]
    omega
  have hd10 : ¬ d ≥ 10 := by omega
  have h1 : n * 10 % 2 ^ 64 = n * 10 := Nat.mod_eq_of_lt (by omega)
  have h2 : (n * 10 + d) % 2 ^ 64 = n * 10 + d := Nat.mod_eq_of_lt hn
  have h3 : ¬ (n * 10 + d < n * 10 ∨ n * 10 + d > maxUint64) := by
    simp only [maxUint64]
    omega
  rw [parseUintLoop, digitValue_digit d hd]
  simp only [hd10, hcut, h1, h2, h3, if_false]

/-- Reading the digits that `formatDigits` writes for `n`, from the value `0`,
reaches the value `n` in front of what follows the digits. -/
theorem parseUintLoop_formatDigits (fuel : Nat) :
    ∀ (n : Nat) (acc : GoString), n < fuel → n < 2 ^ 64 →
      parseUintLoop 0 (formatDigits fuel n acc) = parseUintLoop n acc := by
  induction fuel with
  | zero => intro n acc h; omega
  | succ fuel ih =>
    intro n acc hfuel hn
    have hmod : n % 10 < 10 := Nat.mod_lt _ (by norm_num)
    unfold formatDigits
    by_cases h10 : n / 10 = 0
    · rw [if_pos h10]
      have hlt : n < 10 := by omega
      have hmodn : n % 10 = n := Nat.mod_eq_of_lt hlt
      rw [parseUintLoop_digit 0 _ _ hmod (by omega), hmodn]
      simp
    · rw [if_neg h10, ih (n / 10) _ (by omega) (by omega)]
      rw [parseUintLoop_digit _ _ _ hmod (by omega)]
      have h2 : n / 10 * 10 + n % 10 = n := by omega
      rw [h2]

/-- The text `formatDigits` writes begins with a decimal digit. -/
theorem formatDigits_head (fuel : Nat) :
    ∀ (n : Nat) (acc : GoString), n < fuel →
      ∃ (d : Nat) (rest : List Nat), formatDigits fuel n acc = d :: rest ∧ 48 ≤ d ∧ d ≤ 57 := by
  induction fuel with
  | zero => intro n acc h; omega
  | succ fuel ih =>
    intro n acc hfuel
    have hmod : n % 10 < 10 := Nat.mod_lt _ (by norm_num)
    unfold formatDigits
    by_cases h10 : n / 10 = 0
    · rw [if_pos h10]
      have h1 : 48 ≤ 48 + n % 10 := by omega
      have h2 : 48 + n % 10 ≤ 57 := by omega
      exact ⟨_, _, rfl, h1, h2⟩
    · rw [if_neg h10]
      exact ih _ _ (by omega)

theorem parseUintLoop_nil (n : Nat) : parseUintLoop n [] = (n, none) := by
  unfold parseUintLoop
  rfl

/-- `ParseUint` reads back what `FormatUint` writes. -/
theorem ParseUint_FormatUint (n : Nat) (hn : n < 2 ^ 64) : ParseUint (FormatUint n) = (n, none) := by
  obtain ⟨d, rest, hd, -, -⟩ := formatDigits_head (n + 1) n [] (by omega)
  have hne : FormatUint n ≠ [] := by
    unfold FormatUint
    rw [hd]
    simp
  unfold ParseUint
  rw [if_neg hne]
  unfold FormatUint
  rw [parseUintLoop_formatDigits _ _ _ (by omega) hn, parseUintLoop_nil]

/-- `ParseInt` reads back what `FormatInt` writes, for every `int64`. -/
theorem ParseInt_FormatInt (i : Int) (hi : isInt64 i) : ParseInt (FormatInt i) = (i, none) := by
  unfold isInt64 minInt64 maxInt64 at hi
  obtain ⟨hlo, hhi⟩ := hi
  unfold FormatInt
  by_cases hneg : i < 0
  · rw [if_pos hneg]
    have hm : (-i).toNat < 2 ^ 64 := by omega
    have hm2 : ¬ 9223372036854775808 < (-i).toNat := by omega
    have hcast : (((-i).toNat : Nat) : Int) = -i := Int.toNat_of_nonneg (by omega)
    have hpu := ParseUint_FormatUint _ hm
    simp [ParseInt, hpu, hm2, wrapInt64, hcast]
    omega
  · rw [if_neg hneg]
    obtain ⟨d, rest, hd, hd1, hd2⟩ := formatDigits_head (i.toNat + 1) i.toNat [] (by omega)
    have hm : i.toNat < 2 ^ 64 := by omega
    have hm2 : ¬ 9223372036854775808 ≤ i.toNat := by omega
    have hcast : ((i.toNat : Nat) : Int) = i := Int.toNat_of_nonneg (by omega)
    have hpu := ParseUint_FormatUint _ hm
    unfold FormatUint at hpu ⊢
    rw [hd] at hpu ⊢
    have h43 : d ≠ 43 := by omega
    have h45 : d ≠ 45 := by omega
    simp [ParseInt, h43, h45, hpu, hm2, wrapInt64, hcast]
    omega

/-- When `ParseInt` returns an error, the value it returns with it is `0` or
one of the two ends of `int64`. -/
theorem ParseInt_error_value (s : GoString) (h : (ParseInt s).2 ≠ none) :
    (ParseInt s).1 = 0 ∨ (ParseInt s).1 = maxInt64 ∨ (ParseInt s).1 = minInt64 := by
  unfold maxInt64 minInt64
  cases s with
  | nil => left; rfl
  | cons c cs =>
    simp only [ParseInt] at h ⊢
    split_ifs at h ⊢ <;> first | exact absurd rfl h | simp

/-! ## Lemmas: `RetentionPeriod` -/

/-- The map built by `RetentionPeriod`. -/
theorem periodMap_eq (period : Int) :
    validPeriods.foldl (fun m p => PeriodMap.set m p true) PeriodMap.empty period =
      if period ∈ validPeriods then some true else none := by
  by_cases h : period ∈ validPeriods
  · rw [if_pos h]
    simp only [validPeriods, List.mem_cons, List.mem_singleton, List.not_mem_nil, or_false] at h
    rcases h with h | h | h | h | h | h | h | h | h | h | h | h | h | h | h | h | h <;>
      subst h <;> rfl
  · rw [if_neg h]
    simp only [validPeriods, List.mem_cons, List.mem_singleton, List.not_mem_nil, or_false,
      not_or] at h
    obtain ⟨h1, h2, h3, h4, h5, h6, h7, h8, h9, h10, h11, h12, h13, h14, h15, h16, h17⟩ := h
    simp only [validPeriods, List.foldl_cons, List.foldl_nil, PeriodMap.set, PeriodMap.empty,
      h1, h2, h3, h4, h5, h6, h7, h8, h9, h10, h11, h12, h13, h14, h15, h16, h17, if_false]

theorem RetentionPeriod_eq (env : Environ) :
    RetentionPeriod env =
      if (ParseInt (Getenv env (bytes "RETENTION_PERIOD"))).1 ∈ validPeriods then
        (ParseInt (Getenv env (bytes "RETENTION_PERIOD"))).1
      else defaultRetentionPeriod := by
  unfold RetentionPeriod
  simp only [periodMap_eq]
  split_ifs <;> rfl

/-- The resolved default is always in the allow-list. -/
theorem RetentionPeriod_mem (env : Environ) : RetentionPeriod env ∈ validPeriods := by
  rw [RetentionPeriod_eq]
  split_ifs with h
  · exact h
  · decide

theorem validPeriods_isInt64 : ∀ v ∈ validPeriods, isInt64 v := by decide

theorem zero_not_mem_validPeriods : (0 : Int) ∉ validPeriods := by decide

/-! ## Lemmas: `NewFromEvent` -/

theorem parseJSON_nil : parseJSON [] = none := rfl

theorem ne_nil_of_parseJSON {data : GoString} {j : Json} (h : parseJSON data = some j) :
    data ≠ [] := by
  intro hnil
  rw [hnil, parseJSON_nil] at h
  exact Option.noConfusion h

theorem Unmarshal_of_parseJSON {data : GoString} {j : Json} (h : parseJSON data = some j)
    (v : requestParameters) : Unmarshal data v = decodeRequestParameters j v none := by
  unfold Unmarshal
  rw [h]

/-- No detail: the record stays the zero value. -/
theorem NewFromEvent_of_nil (event : CloudWatchEvent) (h : event.Detail = []) :
    NewFromEvent event = CloudWatchLog.zero := by
  unfold NewFromEvent CloudWatchLog.parseCloudWatchEvent
  rw [if_pos (by rw [h]; exact Nat.le_refl 0)]

/-- An error of `json.Unmarshal`: the record stays the zero value. -/
theorem NewFromEvent_of_error (event : CloudWatchEvent)
    (h : (Unmarshal event.Detail requestParameters.zero).2 ≠ none) :
    NewFromEvent event = CloudWatchLog.zero := by
  unfold NewFromEvent CloudWatchLog.parseCloudWatchEvent
  split_ifs
  · rfl
  · simp only
    split
    · rfl
    · rename_i hnone
      exact absurd hnone h

/-- No error of `json.Unmarshal` on a detail that is there: the record is the
one decoded. -/
theorem NewFromEvent_of_ok (event : CloudWatchEvent) (hne : event.Detail ≠ [])
    (h : (Unmarshal event.Detail requestParameters.zero).2 = none) :
    NewFromEvent event = (Unmarshal event.Detail requestParameters.zero).1.CloudWatchLog := by
  have hlen : ¬ event.Detail.length ≤ 0 := by
    intro hle
    exact hne (List.length_eq_zero.mp (Nat.le_zero.mp hle))
  unfold NewFromEvent CloudWatchLog.parseCloudWatchEvent
  rw [if_neg hlen]
  simp only [h]

theorem findField_requestParameters :
    findField requestParameters.fields (bytes "requestParameters") = some () := by decide

theorem findField_logGroupName :
    findField CloudWatchLog.fields (bytes "logGroupName") = some CloudWatchLogField.LogGroupName := by
  decide

theorem findField_retentionInDays :
    findField CloudWatchLog.fields (bytes "retentionInDays") =
      some CloudWatchLogField.RetentionPeriod := by
  decide

/-- The record decoded from a detail whose only member is `requestParameters`
with an object for its value. -/
theorem Unmarshal_requestParameters_obj {data : GoString} {members : List (GoString × Json)}
    (h : parseJSON data = some (Json.obj [(bytes "requestParameters", Json.obj members)])) :
    Unmarshal data requestParameters.zero =
      (⟨(members.foldl decodeCloudWatchLogMember (CloudWatchLog.zero, none)).1⟩,
        (members.foldl decodeCloudWatchLogMember (CloudWatchLog.zero, none)).2) := by
  rw [Unmarshal_of_parseJSON h]
  simp only [decodeRequestParameters, List.foldl_cons, List.foldl_nil,
    decodeRequestParametersMember, findField_requestParameters, decodeCloudWatchLog,
    requestParameters.zero]

/-- Members none of whose keys names the field `LogGroupName` leave it as it
is. -/
theorem foldl_decode_LogGroupName (members : List (GoString × Json)) :
    ∀ acc : CloudWatchLog × Option UnmarshalError,
      (∀ kv ∈ members, findField CloudWatchLog.fields kv.1 ≠ some CloudWatchLogField.LogGroupName) →
      (members.foldl decodeCloudWatchLogMember acc).1.LogGroupName = acc.1.LogGroupName := by
  induction members with
  | nil => intro acc _; rfl
  | cons kv rest ih =>
    intro acc h
    rw [List.foldl_cons, ih _ (fun x hx => h x (List.mem_cons_of_mem _ hx))]
    have hkv := h kv (List.mem_cons_self _ _)
    unfold decodeCloudWatchLogMember
    split
    · rename_i heq
      exact absurd heq hkv
    · rfl
    · rfl

/-- Members none of whose keys names the field `RetentionPeriod` leave it as it
is. -/
theorem foldl_decode_RetentionPeriod (members : List (GoString × Json)) :
    ∀ acc : CloudWatchLog × Option UnmarshalError,
      (∀ kv ∈ members,
        findField CloudWatchLog.fields kv.1 ≠ some CloudWatchLogField.RetentionPeriod) →
      (members.foldl decodeCloudWatchLogMember acc).1.RetentionPeriod = acc.1.RetentionPeriod := by
  induction members with
  | nil => intro acc _; rfl
  | cons kv rest ih =>
    intro acc h
    rw [List.foldl_cons, ih _ (fun x hx => h x (List.mem_cons_of_mem _ hx))]
    have hkv := h kv (List.mem_cons_self _ _)
    unfold decodeCloudWatchLogMember
    split
    · rfl
    · rename_i heq
      exact absurd heq hkv
    · rfl

/-- The record interpreted from a detail whose only member is
`requestParameters` with an object for its value: the zero record or the record
decoded. -/
theorem NewFromEvent_requestParameters_obj (event : CloudWatchEvent)
    {members : List (GoString × Json)}
    (h : parseJSON event.Detail =
      some (Json.obj [(bytes "requestParameters", Json.obj members)])) :
    NewFromEvent event = CloudWatchLog.zero ∨
      NewFromEvent event = (members.foldl decodeCloudWatchLogMember (CloudWatchLog.zero, none)).1 := by
  have hu := Unmarshal_requestParameters_obj h
  by_cases herr : (Unmarshal event.Detail requestParameters.zero).2 = none
  · right
    rw [NewFromEvent_of_ok event (ne_nil_of_parseJSON h) herr, hu]
  · left
    exact NewFromEvent_of_error event herr

theorem saveError_ne_none (saved : Option UnmarshalError) (err : UnmarshalError) :
    saveError saved err ≠ none := by
  cases saved <;> simp [saveError]

theorem decodeString_keeps_error (v : Json) (dst : GoString) (saved : Option UnmarshalError)
    (h : saved ≠ none) : (decodeString v dst saved).2 ≠ none := by
  cases v <;> first | exact h | exact saveError_ne_none _ _

theorem decodeInt64_keeps_error (v : Json) (dst : Int) (saved : Option UnmarshalError)
    (h : saved ≠ none) : (decodeInt64 v dst saved).2 ≠ none := by
  cases v with
  | num lit =>
    simp only [decodeInt64]
    cases (ParseInt lit).2 with
    | none => exact h
    | some e => exact saveError_ne_none _ _
  | _ => first | exact h | exact saveError_ne_none _ _

theorem decodeString_wrong (v : Json) (dst : GoString) (saved : Option UnmarshalError)
    (h : wrongForString v = true) : (decodeString v dst saved).2 ≠ none := by
  cases v <;> first | exact absurd h Bool.false_ne_true | exact saveError_ne_none _ _

theorem decodeInt64_wrong (v : Json) (dst : Int) (saved : Option UnmarshalError)
    (h : wrongForInt64 v = true) : (decodeInt64 v dst saved).2 ≠ none := by
  cases v with
  | num lit =>
    simp only [wrongForInt64] at h
    simp only [decodeInt64]
    cases hp : (ParseInt lit).2 with
    | none =>
      rw [hp] at h
      exact absurd h Bool.false_ne_true
    | some e => exact saveError_ne_none _ _
  | _ => first | exact absurd h Bool.false_ne_true | exact saveError_ne_none _ _

/-- An error saved earlier is still there after one more member. -/
theorem decodeCloudWatchLogMember_keeps_error (acc : CloudWatchLog × Option UnmarshalError)
    (kv : GoString × Json) (h : acc.2 ≠ none) : (decodeCloudWatchLogMember acc kv).2 ≠ none := by
  unfold decodeCloudWatchLogMember
  split
  · exact decodeString_keeps_error _ _ _ h
  · exact decodeInt64_keeps_error _ _ _ h
  · exact h

/-- A member of the wrong type leaves an error. -/
theorem decodeCloudWatchLogMember_mistyped (acc : CloudWatchLog × Option UnmarshalError)
    (kv : GoString × Json) (h : mistyped kv = true) :
    (decodeCloudWatchLogMember acc kv).2 ≠ none := by
  unfold mistyped at h
  unfold decodeCloudWatchLogMember
  split at h
  · rename_i hf
    simp only [hf]
    exact decodeString_wrong _ _ _ h
  · rename_i hf
    simp only [hf]
    exact decodeInt64_wrong _ _ _ h
  · exact absurd h Bool.false_ne_true

/-- An error saved, or a member of the wrong type, leaves an error at the end
of the object. -/
theorem foldl_decode_error (members : List (GoString × Json)) :
    ∀ acc : CloudWatchLog × Option UnmarshalError,
      (acc.2 ≠ none ∨ ∃ kv ∈ members, mistyped kv = true) →
      (members.foldl decodeCloudWatchLogMember acc).2 ≠ none := by
  induction members with
  | nil =>
    intro acc h
    rcases h with h | ⟨kv, hkv, -⟩
    · exact h
    · exact absurd hkv (List.not_mem_nil kv)
  | cons kv rest ih =>
    intro acc h
    rw [List.foldl_cons]
    apply ih
    rcases h with h | ⟨x, hx, hm⟩
    · exact Or.inl (decodeCloudWatchLogMember_keeps_error acc kv h)
    · rcases List.mem_cons.mp hx with rfl | hx
      · exact Or.inl (decodeCloudWatchLogMember_mistyped acc _ hm)
      · exact Or.inr ⟨x, hx, hm⟩

/-! ## The claims -/

/-- C1: for every value `v` of the allow-list, when `RETENTION_PERIOD` holds the
decimal text of `v`, `RetentionPeriod` returns `v`. -/
theorem RetentionPeriod_of_valid (env : Environ) (v : Int) (hv : v ∈ validPeriods)
    (henv : env (bytes "RETENTION_PERIOD") = some (FormatInt v)) : RetentionPeriod env = v := by
  rw [RetentionPeriod_eq]
  unfold Getenv
  rw [henv, Option.getD_some, ParseInt_FormatInt v (validPeriods_isInt64 v hv)]
  exact if_pos hv

theorem RetentionPeriod_of_valid_witness :
    (3653 : Int) ∈ validPeriods ∧ RetentionPeriod (envOf (some (bytes "3653"))) = 3653 :=
  ⟨by decide, RetentionPeriod_of_valid _ 3653 (by decide) (by decide)⟩

/-- C2: when `RETENTION_PERIOD` is not set, or `strconv.ParseInt` returns an
error for its value, or the value read is not in the allow-list,
`RetentionPeriod` returns the default `14`. -/
theorem RetentionPeriod_default (env : Environ)
    (h : env (bytes "RETENTION_PERIOD") = none ∨
      (ParseInt (Getenv env (bytes "RETENTION_PERIOD"))).2 ≠ none ∨
      (ParseInt (Getenv env (bytes "RETENTION_PERIOD"))).1 ∉ validPeriods) :
    RetentionPeriod env = 14 := by
  rw [RetentionPeriod_eq]
  split_ifs with hm
  · exfalso
    rcases h with habs | herr | hnot
    · unfold Getenv at hm
      rw [habs] at hm
      revert hm
      decide
    · rcases ParseInt_error_value _ herr with h0 | h0 | h0 <;> rw [h0] at hm <;> revert hm <;>
        decide
    · exact hnot hm
  · rfl

theorem RetentionPeriod_default_witness :
    RetentionPeriod (envOf (some (bytes "2"))) = 14 ∧
      RetentionPeriod (envOf (some (bytes "-1"))) = 14 ∧
      RetentionPeriod (envOf (some (bytes "abc"))) = 14 ∧
      RetentionPeriod (envOf (some (bytes "9223372036854775808"))) = 14 ∧
      RetentionPeriod (envOf (some [])) = 14 ∧
      RetentionPeriod (envOf none) = 14 :=
  ⟨RetentionPeriod_default _ (Or.inr (Or.inr (by decide))),
   RetentionPeriod_default _ (Or.inr (Or.inr (by decide))),
   RetentionPeriod_default _ (Or.inr (Or.inl (by decide))),
   RetentionPeriod_default _ (Or.inr (Or.inl (by decide))),
   RetentionPeriod_default _ (Or.inr (Or.inl (by decide))),
   RetentionPeriod_default _ (Or.inl rfl)⟩

/-- C3: for the record `r` interpreted from the event and the resolved default
`d`, `HandleRequest` issues no call and returns `nil` when
`r.RetentionPeriod = d`, and issues exactly one call, with the arguments
`(r.LogGroupName, d)`, when `r.RetentionPeriod ≠ d`. -/
theorem HandleRequest_decision {ε : Type} (env : Environ) (client : CloudWatchLogsAPI ε)
    (event : CloudWatchEvent) (r : CloudWatchLog) (d : Int)
    (hr : NewFromEvent event = r) (hd : RetentionPeriod env = d) :
    (r.RetentionPeriod = d →
      (HandleRequest env client event).calls = [] ∧ (HandleRequest env client event).err = none) ∧
    (r.RetentionPeriod ≠ d →
      (HandleRequest env client event).calls = [⟨r.LogGroupName, d⟩]) := by
  subst hr hd
  unfold HandleRequest
  constructor
  · intro heq
    simp only [ne_eq, heq, not_true_eq_false, if_false, and_self]
  · intro hne
    simp only [ne_eq, hne, not_false_eq_true, if_true, CloudWatchLog.UpdateRetentionPolicy]

theorem HandleRequest_decision_witness :
    ((HandleRequest (envOf (some (bytes "7"))) mockedPutRetentionPolicy
          (testEvent (detailTest "7"))).calls = [] ∧
      (HandleRequest (envOf (some (bytes "7"))) mockedPutRetentionPolicy
          (testEvent (detailTest "7"))).err = none) ∧
    (HandleRequest (envOf none) mockedPutRetentionPolicy (testEvent (detailTest "30"))).calls =
      [⟨bytes "test", 14⟩] :=
  ⟨(HandleRequest_decision (envOf (some (bytes "7"))) mockedPutRetentionPolicy
      (testEvent (detailTest "7")) ⟨bytes "test", 7⟩ 7 (by decide) (by decide)).1 rfl,
   (HandleRequest_decision (envOf none) mockedPutRetentionPolicy
      (testEvent (detailTest "30")) ⟨bytes "test", 30⟩ 14 (by decide) (by decide)).2 (by decide)⟩

/-- C4: `UpdateRetentionPolicy` makes one call of `PutRetentionPolicy`, with the
name of the record and the retention given, and returns the error of that call
as it is (`nil` or the error of the client); `HandleRequest` returns it
unchanged whenever it makes the call. -/
theorem UpdateRetentionPolicy_error {ε : Type} (cwLog : CloudWatchLog)
    (client : CloudWatchLogsAPI ε) (retentionPeriod : Int) :
    (cwLog.UpdateRetentionPolicy client retentionPeriod).calls =
        [⟨cwLog.LogGroupName, retentionPeriod⟩] ∧
    (cwLog.UpdateRetentionPolicy client retentionPeriod).err =
        client.PutRetentionPolicy ⟨cwLog.LogGroupName, retentionPeriod⟩ ∧
    ∀ (env : Environ) (event : CloudWatchEvent),
      NewFromEvent event = cwLog → RetentionPeriod env = retentionPeriod →
      cwLog.RetentionPeriod ≠ retentionPeriod →
        (HandleRequest env client event).err =
          client.PutRetentionPolicy ⟨cwLog.LogGroupName, retentionPeriod⟩ := by
  refine ⟨rfl, rfl, ?_⟩
  intro env event hr hd hne
  subst hr hd
  unfold HandleRequest
  simp only [ne_eq, hne, not_false_eq_true, if_true, CloudWatchLog.UpdateRetentionPolicy]

theorem UpdateRetentionPolicy_error_witness :
    (CloudWatchLog.UpdateRetentionPolicy ⟨bytes "test", 7⟩ mockedPutRetentionPolicy 7).err = none ∧
    (CloudWatchLog.UpdateRetentionPolicy ⟨bytes "test", 30⟩
        (failingClient (bytes "ResourceNotFoundException")) 14).err =
      some (bytes "ResourceNotFoundException") ∧
    (HandleRequest (envOf none) (failingClient (bytes "ResourceNotFoundException"))
        (testEvent (detailTest "30"))).err = some (bytes "ResourceNotFoundException") :=
  ⟨(UpdateRetentionPolicy_error ⟨bytes "test", 7⟩ mockedPutRetentionPolicy 7).2.1,
   (UpdateRetentionPolicy_error ⟨bytes "test", 30⟩
      (failingClient (bytes "ResourceNotFoundException")) 14).2.1,
   (UpdateRetentionPolicy_error ⟨bytes "test", 30⟩
      (failingClient (bytes "ResourceNotFoundException")) 14).2.2 (envOf none)
      (testEvent (detailTest "30")) (by decide) (by decide) (by decide)⟩

/-- C5: for every string `s` and every `int64` `n`, an event whose detail is the
JSON object with the one member `requestParameters`, itself the object with
the members `logGroupName: s` and `retentionInDays: n`, is interpreted by
`NewFromEvent` as the record with `LogGroupName = s` and `RetentionPeriod = n`. -/
theorem NewFromEvent_of_requestParameters (event : CloudWatchEvent) (s : GoString) (n : Int)
    (hn : isInt64 n)
    (h : parseJSON event.Detail = some (Json.obj [(bytes "requestParameters",
      Json.obj [(bytes "logGroupName", Json.str s),
        (bytes "retentionInDays", Json.num (FormatInt n))])])) :
    NewFromEvent event = ⟨s, n⟩ := by
  have hu := Unmarshal_requestParameters_obj h
  simp only [List.foldl_cons, List.foldl_nil, decodeCloudWatchLogMember, findField_logGroupName,
    findField_retentionInDays, decodeString, decodeInt64, ParseInt_FormatInt n hn,
    CloudWatchLog.zero] at hu
  rw [NewFromEvent_of_ok event (ne_nil_of_parseJSON h) (by rw [hu]), hu]

theorem NewFromEvent_of_requestParameters_witness :
    NewFromEvent (testEvent (detailTest "7")) = ⟨bytes "test", 7⟩ :=
  NewFromEvent_of_requestParameters (testEvent (detailTest "7")) (bytes "test") 7 (by decide)
    (by rfl)

/-- C6: for every event whose detail is there and fails to parse, that is, for
which `json.Unmarshal` returns an error, `NewFromEvent` returns the zero record,
with no field set, also when a field was decoded before the error was found.
This covers a detail that is not JSON, and a detail in which a member of
`requestParameters` has the wrong type for its field (such as a number for
`logGroupName`), whatever the other members. -/
theorem NewFromEvent_of_unmarshal_error (event : CloudWatchEvent) (_hne : event.Detail ≠ []) :
    ((Unmarshal event.Detail requestParameters.zero).2 ≠ none → NewFromEvent event = ⟨[], 0⟩) ∧
    (parseJSON event.Detail = none → NewFromEvent event = ⟨[], 0⟩) ∧
    (∀ members : List (GoString × Json),
      parseJSON event.Detail = some (Json.obj [(bytes "requestParameters", Json.obj members)]) →
      (∃ kv ∈ members, mistyped kv = true) → NewFromEvent event = ⟨[], 0⟩) := by
  refine ⟨NewFromEvent_of_error event, ?_, ?_⟩
  · intro hnone
    apply NewFromEvent_of_error
    unfold Unmarshal
    rw [hnone]
    exact Option.some_ne_none _
  · intro members hparse hbad
    apply NewFromEvent_of_error
    rw [Unmarshal_requestParameters_obj hparse]
    exact foldl_decode_error members _ (Or.inr hbad)

theorem NewFromEvent_of_unmarshal_error_witness :
    Unmarshal detailMalformedLate requestParameters.zero =
        (⟨⟨[], 7⟩⟩, some (UnmarshalError.UnmarshalTypeError (bytes "number") (bytes "string"))) ∧
      NewFromEvent (testEvent detailMalformedLate) = ⟨[], 0⟩ ∧
      NewFromEvent (testEvent detailMalformed) = ⟨[], 0⟩ ∧
      NewFromEvent (testEvent detailTruncated) = ⟨[], 0⟩ :=
  ⟨by decide,
   (NewFromEvent_of_unmarshal_error (testEvent detailMalformedLate) (by decide)).2.2
      [(bytes "retentionInDays", Json.num (bytes "7")), (bytes "logGroupName", Json.num (bytes "1"))]
      (by rfl) ⟨(bytes "logGroupName", Json.num (bytes "1")), by simp, by decide⟩,
   (NewFromEvent_of_unmarshal_error (testEvent detailMalformed) (by decide)).1 (by decide),
   (NewFromEvent_of_unmarshal_error (testEvent detailTruncated) (by decide)).2.1 (by rfl)⟩

/-- C7: for every event whose detail is absent or empty, whatever its other
fields, `NewFromEvent` returns the record with an empty `LogGroupName` and
`RetentionPeriod` 0. -/
theorem NewFromEvent_of_no_detail (event : CloudWatchEvent) (h : event.Detail.length = 0) :
    NewFromEvent event = ⟨[], 0⟩ :=
  NewFromEvent_of_nil event (List.length_eq_zero.mp h)

theorem NewFromEvent_of_no_detail_witness : NewFromEvent (testEvent []) = ⟨[], 0⟩ :=
  NewFromEvent_of_no_detail (testEvent []) rfl

/-- C8: for every event whose detail is the JSON object with the one member
`requestParameters`, itself the empty object, `NewFromEvent` returns the record
with an empty `LogGroupName` and `RetentionPeriod` 0. -/
theorem NewFromEvent_of_empty_requestParameters (event : CloudWatchEvent)
    (h : parseJSON event.Detail = some (Json.obj [(bytes "requestParameters", Json.obj [])])) :
    NewFromEvent event = ⟨[], 0⟩ := by
  have hu := Unmarshal_requestParameters_obj h
  simp only [List.foldl_nil, CloudWatchLog.zero] at hu
  rw [NewFromEvent_of_ok event (ne_nil_of_parseJSON h) (by rw [hu]), hu]

theorem NewFromEvent_of_empty_requestParameters_witness :
    NewFromEvent (testEvent detailNoRequestParameters) = ⟨[], 0⟩ :=
  NewFromEvent_of_empty_requestParameters (testEvent detailNoRequestParameters) (by rfl)

/-- C9, as the claim states it, fails: the detail
`{"requestParameters": {"logGroupName": "test"}}` has no `retentionInDays`, and
`NewFromEvent` returns the record with the name `test` and the retention `0`,
which is not the zero record. -/
theorem NewFromEvent_name_without_retention :
    parseJSON detailNameOnly =
        some (Json.obj [(bytes "requestParameters",
          Json.obj [(bytes "logGroupName", Json.str (bytes "test"))])]) ∧
      NewFromEvent (testEvent detailNameOnly) = ⟨bytes "test", 0⟩ ∧
      NewFromEvent (testEvent detailNameOnly) ≠ ⟨[], 0⟩ :=
  ⟨by rfl, by decide, by decide⟩

/-- C9, amended: when a source field is malformed (`json.Unmarshal` returns an
error, as it does when a member of `requestParameters` has the wrong type for
its field), `NewFromEvent` returns the zero record; when the detail is the
object with the one member `requestParameters`, itself an object, a field that
none of the members of that object names is zero in the record returned,
whatever the other field; and the other field is still taken from the detail:
with `logGroupName: s` alone the record is `(s, 0)`, with `retentionInDays: n`
alone it is `("", n)`. -/
theorem NewFromEvent_absent_or_malformed (event : CloudWatchEvent) :
    ((Unmarshal event.Detail requestParameters.zero).2 ≠ none → NewFromEvent event = ⟨[], 0⟩) ∧
    (∀ members : List (GoString × Json),
      parseJSON event.Detail = some (Json.obj [(bytes "requestParameters", Json.obj members)]) →
      ((∃ kv ∈ members, mistyped kv = true) → NewFromEvent event = ⟨[], 0⟩) ∧
      ((∀ kv ∈ members,
          findField CloudWatchLog.fields kv.1 ≠ some CloudWatchLogField.LogGroupName) →
        (NewFromEvent event).LogGroupName = []) ∧
      ((∀ kv ∈ members,
          findField CloudWatchLog.fields kv.1 ≠ some CloudWatchLogField.RetentionPeriod) →
        (NewFromEvent event).RetentionPeriod = 0)) ∧
    (∀ s : GoString,
      parseJSON event.Detail = some (Json.obj [(bytes "requestParameters",
        Json.obj [(bytes "logGroupName", Json.str s)])]) →
      NewFromEvent event = ⟨s, 0⟩) ∧
    (∀ n : Int, isInt64 n →
      parseJSON event.Detail = some (Json.obj [(bytes "requestParameters",
        Json.obj [(bytes "retentionInDays", Json.num (FormatInt n))])]) →
      NewFromEvent event = ⟨[], n⟩) := by
  refine ⟨NewFromEvent_of_error event, ?_, ?_, ?_⟩
  · intro members h
    refine ⟨?_, ?_, ?_⟩
    · intro hbad
      apply NewFromEvent_of_error
      rw [Unmarshal_requestParameters_obj h]
      exact foldl_decode_error members _ (Or.inr hbad)
    · intro habs
      rcases NewFromEvent_requestParameters_obj event h with hz | hz
      · rw [hz]; rfl
      · rw [hz, foldl_decode_LogGroupName members _ habs]; rfl
    · intro habs
      rcases NewFromEvent_requestParameters_obj event h with hz | hz
      · rw [hz]; rfl
      · rw [hz, foldl_decode_RetentionPeriod members _ habs]; rfl
  · intro s h
    have hu := Unmarshal_requestParameters_obj h
    simp only [List.foldl_cons, List.foldl_nil, decodeCloudWatchLogMember,
      findField_logGroupName, decodeString, CloudWatchLog.zero] at hu
    rw [NewFromEvent_of_ok event (ne_nil_of_parseJSON h) (by rw [hu]), hu]
  · intro n hn h
    have hu := Unmarshal_requestParameters_obj h
    simp only [List.foldl_cons, List.foldl_nil, decodeCloudWatchLogMember,
      findField_retentionInDays, decodeInt64, ParseInt_FormatInt n hn, CloudWatchLog.zero] at hu
    rw [NewFromEvent_of_ok event (ne_nil_of_parseJSON h) (by rw [hu]), hu]

theorem NewFromEvent_absent_or_malformed_witness :
    NewFromEvent (testEvent detailMalformed) = ⟨[], 0⟩ ∧
      (NewFromEvent (testEvent detailNameOnly)).RetentionPeriod = 0 ∧
      NewFromEvent (testEvent detailNameOnly) = ⟨bytes "test", 0⟩ ∧
      NewFromEvent (testEvent detailDaysOnly) = ⟨[], 30⟩ :=
  ⟨((NewFromEvent_absent_or_malformed (testEvent detailMalformed)).2.1
      [(bytes "logGroupName", Json.num (bytes "1"))] (by rfl)).1
      ⟨(bytes "logGroupName", Json.num (bytes "1")), by simp, by decide⟩,
   ((NewFromEvent_absent_or_malformed (testEvent detailNameOnly)).2.1
      [(bytes "logGroupName", Json.str (bytes "test"))] (by rfl)).2.2 (by decide),
   (NewFromEvent_absent_or_malformed (testEvent detailNameOnly)).2.2.1 (bytes "test") (by rfl),
   (NewFromEvent_absent_or_malformed (testEvent detailDaysOnly)).2.2.2 30 (by decide) (by rfl)⟩

/-- C10: for every value of `RETENTION_PERIOD`, set or not, and every event
whose detail is absent or for which `json.Unmarshal` returns an error,
`HandleRequest` issues exactly one call, with an empty log group name and the
resolved default: the resolved default is in the allow-list, which does not
contain `0`, so it differs from the retention of the zero record. -/
theorem HandleRequest_of_unparsed_event {ε : Type} (env : Environ)
    (client : CloudWatchLogsAPI ε) (event : CloudWatchEvent)
    (h : event.Detail = [] ∨ (Unmarshal event.Detail requestParameters.zero).2 ≠ none) :
    (HandleRequest env client event).calls = [⟨[], RetentionPeriod env⟩] ∧
      RetentionPeriod env ∈ validPeriods ∧ (0 : Int) ∉ validPeriods ∧
      RetentionPeriod env ≠ (NewFromEvent event).RetentionPeriod := by
  have hz : NewFromEvent event = CloudWatchLog.zero := by
    rcases h with h | h
    · exact NewFromEvent_of_nil event h
    · exact NewFromEvent_of_error event h
  have hmem := RetentionPeriod_mem env
  have hne : (CloudWatchLog.zero).RetentionPeriod ≠ RetentionPeriod env := by
    intro heq
    rw [← heq] at hmem
    exact zero_not_mem_validPeriods hmem
  refine ⟨?_, hmem, zero_not_mem_validPeriods, ?_⟩
  · unfold HandleRequest
    simp only [hz, ne_eq, hne, not_false_eq_true, if_true, CloudWatchLog.UpdateRetentionPolicy]
    rfl
  · rw [hz]
    exact fun heq => hne heq.symm

theorem HandleRequest_of_unparsed_event_witness :
    (HandleRequest (envOf none) mockedPutRetentionPolicy (testEvent [])).calls = [⟨[], 14⟩] ∧
      (HandleRequest (envOf (some (bytes "30"))) mockedPutRetentionPolicy
        (testEvent detailMalformed)).calls = [⟨[], 30⟩] :=
  ⟨(HandleRequest_of_unparsed_event (envOf none) mockedPutRetentionPolicy (testEvent [])
      (Or.inl rfl)).1,
   (HandleRequest_of_unparsed_event (envOf (some (bytes "30"))) mockedPutRetentionPolicy
      (testEvent detailMalformed) (Or.inr (by decide))).1⟩

end LogRetention
